import Mathlib

/-!
Verification development for the profile manager
(`src/components/profiles/src/ProfileManagerImpl.cpp`).

The development shallowly embeds the profile data model, the suggestion
merge algorithm of `ProfileManagerImpl::Initialize`, the persisted-document
codec (`ParseStoredProfiles` / `UpdateStoredProfiles`), and the sign-in
orchestration chain of `ProfileManagerImpl::SignIn`.

`size_t` arithmetic is modelled as `Nat` reduced modulo `2 ^ 64`; the
32-bit clipping `hashKey &= UINT32_MAX` is modelled as `% 2 ^ 32`.
-/

namespace ProfileManager

/-- `ProfileIdentifier` is `std::pair<std::string, std::string>`:
(provider key, provider value). Equality is exact pairwise equality. -/
abbrev ProfileIdentifier := String × String

/-- The profile entity (`ProfileImpl`): display metadata, the ordered
identifier list, the internal identifier (the fingerprint assigned by the
manager), and the suggestion flag. The class declaration itself is not under
`src/`; the fields are modelled from the spec's data model (§3): display
name, tile URI, ordered identifier sequence, derived fingerprint, and
`isSuggestion` (false unless the profile was sourced from a suggestion
provider). -/
structure ProfileImpl where
  displayName : String
  tileURI : String
  identifiers : List ProfileIdentifier
  internalIdentifier : Nat
  isSuggestion : Bool
deriving DecidableEq

/-- Modulus of `size_t` arithmetic (the build is modelled as 64-bit, which is
what makes the source's explicit 32-bit clipping meaningful). -/
def u64Mod : Nat := 2 ^ 64

/-- Modulus corresponding to `hashKey &= UINT32_MAX`. -/
def u32Mod : Nat := 2 ^ 32

/-- One step of the hash accumulation
`hashKey ^= 3 * std::hash<ProfileIdentifier>()(identifier)` , performed in
`size_t` arithmetic. The content hash `h` is a parameter of the whole
development: `std::hash<ProfileIdentifier>` is repository code that is not
under `src/`. Modelled from the spec (§4.1): an arbitrary `size_t`-valued
content hash of the pair. -/
def hashStep (h : ProfileIdentifier → Nat) (acc : Nat) (id : ProfileIdentifier) : Nat :=
  acc ^^^ (3 * h id % u64Mod)

/-- The raw accumulated hash key over an identifier sequence (starting
from `size_t hashKey = 0`). -/
def hashKeyRaw (h : ProfileIdentifier → Nat) (ids : List ProfileIdentifier) : Nat :=
  ids.foldl (hashStep h) 0

/-- Fingerprint assigned on the suggestion-ingestion path
(`Initialize`, lines 34-66): the raw XOR clipped to 32 bits
(`hashKey &= UINT32_MAX`). -/
def fingerprintInit (h : ProfileIdentifier → Nat) (ids : List ProfileIdentifier) : Nat :=
  hashKeyRaw h ids % u32Mod

/-- Fingerprint assigned on the persisted-load path
(`ParseStoredProfiles`, lines 200-241): the raw XOR, with no 32-bit
clipping anywhere on that path. -/
def fingerprintParse (h : ProfileIdentifier → Nat) (ids : List ProfileIdentifier) : Nat :=
  hashKeyRaw h ids

/-- The manager's profile state: `m_profiles` (a `std::map` from hash key to
profile, modelled as a key-sorted association list) and `m_profileIndices`
(the discovery-ordered list of keys). -/
structure ProfileStore where
  profiles : List (Nat × ProfileImpl)
  profileIndices : List Nat
deriving DecidableEq

/-- The manager's initial state: both containers empty. -/
def emptyStore : ProfileStore := ⟨[], []⟩

/-- `m_profiles[k] = v` on a `std::map`: insert keeping keys sorted,
replacing an existing entry with the same key. -/
def mapInsert (k : Nat) (v : ProfileImpl) : List (Nat × ProfileImpl) → List (Nat × ProfileImpl)
  | [] => [(k, v)]
  | (k', v') :: rest =>
    if k < k' then (k, v) :: (k', v') :: rest
    else if k = k' then (k, v) :: rest
    else (k', v') :: mapInsert k v rest

/-- Lookup in the modelled `std::map`. -/
def mapFind (k : Nat) : List (Nat × ProfileImpl) → Option ProfileImpl
  | [] => none
  | (k', v) :: rest => if k = k' then some v else mapFind k rest

/-- Well-formedness of the modelled `std::map`: keys strictly sorted (this
is invariant under `mapInsert` and holds for every reachable store). -/
def StoreWF (st : ProfileStore) : Prop :=
  List.Pairwise (fun a b => a.1 < b.1) st.profiles

instance (st : ProfileStore) : Decidable (StoreWF st) := by
  unfold StoreWF; infer_instance

/-- The inner `j` loop of the match scan: does the profile's identifier list
contain an identifier exactly equal to `id`? (The loop breaks at the first
match, which is observationally "any match".) -/
def hasIdentifier (ids : List ProfileIdentifier) (id : ProfileIdentifier) : Bool :=
  match ids with
  | [] => false
  | x :: rest => if x = id then true else hasIdentifier rest id

/-- One pass of the middle loop (over `m_profiles`) when no match has been
recorded yet: the first stored profile containing `id`. -/
def findMatch (ps : List (Nat × ProfileImpl)) (id : ProfileIdentifier) :
    Option (Nat × ProfileImpl) :=
  ps.find? (fun kp => hasIdentifier kp.2.identifiers id)

/-- One iteration of the outer loop (over the candidate's identifiers) of the
match scan in `Initialize` (lines 36-63), acting on the recorded match
state. When a match was already recorded (`matchesExistingProfile` is set),
the middle loop examines only the first map entry before the
`if (matchesExistingProfile) break;` fires, and reassigns `matchingProfile`
to that first entry if its inner loop finds `id`. -/
def scanStep (ps : List (Nat × ProfileImpl)) (st : Option (Nat × ProfileImpl))
    (id : ProfileIdentifier) : Option (Nat × ProfileImpl) :=
  match st with
  | none => findMatch ps id
  | some m =>
    match ps with
    | [] => some m
    | first :: _ => if hasIdentifier first.2.identifiers id then some first else some m

/-- The full match scan of `Initialize`: fold the per-identifier step over
the candidate's identifiers, starting with no recorded match. -/
def findMatchingProfile (ps : List (Nat × ProfileImpl)) (ids : List ProfileIdentifier) :
    Option (Nat × ProfileImpl) :=
  ids.foldl (scanStep ps) none

/-- The per-candidate body of `Initialize` (lines 30-84): scan for a
matching profile while accumulating the hash key, clip the key to 32 bits,
mark the candidate as a suggestion and set its internal identifier; then
either insert the candidate (no match) or overwrite the matching profile's
display name and tile URI (match). -/
def ingestSuggestion (h : ProfileIdentifier → Nat) (st : ProfileStore)
    (cand : ProfileImpl) : ProfileStore :=
  let m := findMatchingProfile st.profiles cand.identifiers
  let hashKey := fingerprintInit h cand.identifiers
  let cand' : ProfileImpl :=
    { cand with isSuggestion := true, internalIdentifier := hashKey }
  match m with
  | none =>
    { profiles := mapInsert hashKey cand' st.profiles
      profileIndices := st.profileIndices ++ [hashKey] }
  | some (k, p) =>
    { profiles :=
        mapInsert k { p with displayName := cand'.displayName, tileURI := cand'.tileURI }
          st.profiles
      profileIndices := st.profileIndices }

/-- `ProfileManagerImpl::GetNumProfiles` (line 344): the size of
`m_profileIndices`. -/
def getNumProfiles (st : ProfileStore) : Nat :=
  st.profileIndices.length

/-- A parsed JSON value, mirroring the `rapidjson::Value` shapes that
`ParseStoredProfiles` / `UpdateStoredProfiles` distinguish: string, number,
boolean, null, array, object (an object is a member list; member lookup
returns the first member with the queried name). -/
inductive JValue
  | str (s : String)
  | num (n : Int)
  | jbool (b : Bool)
  | jnull
  | arr (xs : List JValue)
  | obj (fields : List (String × JValue))

/-- `value.HasMember(name)` followed by `value[name]`: the first member with
the given name, if any. -/
def jFind (fields : List (String × JValue)) (k : String) : Option JValue :=
  match fields with
  | [] => none
  | (k', v) :: rest => if k' = k then some v else jFind rest k

/-- The identifier-pair guards of `ParseStoredProfiles` (lines 204-230):
the member must be an array, of size exactly 2, with both elements strings;
otherwise the pair is rejected. -/
def parseIdentifier : JValue → Option ProfileIdentifier
  | .arr [.str a, .str b] => some (a, b)
  | _ => none

/-- One iteration of the identifier loop in `ParseStoredProfiles`: a
rejected pair is skipped (`return` from the lambda); an accepted pair is
appended to the identifier vector and folded into the hash key. -/
def parseIdentifiersStep (h : ProfileIdentifier → Nat)
    (acc : List ProfileIdentifier × Nat) (v : JValue) :
    List ProfileIdentifier × Nat :=
  match parseIdentifier v with
  | none => acc
  | some id => (acc.1 ++ [id], hashStep h acc.2 id)

/-- The identifier loop of `ParseStoredProfiles` (lines 200-234): the
collected identifier vector and the accumulated hash key (which is never
clipped to 32 bits on this path). -/
def parseIdentifiers (h : ProfileIdentifier → Nat) (ivs : List JValue) :
    List ProfileIdentifier × Nat :=
  ivs.foldl (parseIdentifiersStep h) ([], 0)

/-- The entry-level guards of `ParseStoredProfiles` (lines 156-198), in
source order: the entry must be an object with a string `displayName`, a
string `tileUri`, and an array `identifiers`; any failing guard causes an
early `return` (the entry is skipped). -/
def entryShape : JValue → Option (String × String × List JValue)
  | .obj fields =>
    match jFind fields "displayName" with
    | some (.str dn) =>
      match jFind fields "tileUri" with
      | some (.str tu) =>
        match jFind fields "identifiers" with
        | some (.arr ivs) => some (dn, tu, ivs)
        | _ => none
      | _ => none
    | _ => none
  | _ => none

/-- The per-entry body of `ParseStoredProfiles` (lines 154-246): a
malformed entry leaves the store unchanged; a well-formed entry produces a
fresh profile with the parsed metadata and identifiers, internal identifier
set to the (unclipped) hash key, inserted into `m_profiles` with the key
appended to `m_profileIndices`. A freshly constructed `ProfileImpl` has
`isSuggestion = false` (modelled from the spec §3: the flag is true only
for profiles sourced from a suggestion provider). -/
def parseEntry (h : ProfileIdentifier → Nat) (st : ProfileStore) (v : JValue) :
    ProfileStore :=
  match entryShape v with
  | none => st
  | some (dn, tu, ivs) =>
    let parsed := parseIdentifiers h ivs
    let p : ProfileImpl :=
      { displayName := dn, tileURI := tu, identifiers := parsed.1
        internalIdentifier := parsed.2, isSuggestion := false }
    { profiles := mapInsert parsed.2 p st.profiles
      profileIndices := st.profileIndices ++ [parsed.2] }

/-- `ProfileManagerImpl::ParseStoredProfiles` (lines 140-250), applied to an
already-parsed document: the document must be an object with a `profiles`
array member, whose entries are folded through `parseEntry`; any other
shape leaves the store unchanged. -/
def parseStoredProfiles (h : ProfileIdentifier → Nat) (st : ProfileStore)
    (doc : JValue) : ProfileStore :=
  match doc with
  | .obj fields =>
    match jFind fields "profiles" with
    | some (.arr entries) => entries.foldl (parseEntry h) st
    | _ => st
  | _ => st

/-- A document whose single member is the given `profiles` array (the shape
`UpdateStoredProfiles` writes and `ParseStoredProfiles` expects). -/
def profilesDoc (entries : List JValue) : JValue :=
  .obj [("profiles", .arr entries)]

/-- Serialization of one identifier pair in `UpdateStoredProfiles`
(lines 308-316): a two-element array of the two strings. -/
def encodeIdentifier (id : ProfileIdentifier) : JValue :=
  .arr [.str id.1, .str id.2]

/-- Serialization of one profile in `UpdateStoredProfiles` (lines 296-321):
an object with `displayName`, `tileUri` and the identifier array, in that
member order. -/
def encodeProfile (p : ProfileImpl) : JValue :=
  .obj [("displayName", .str p.displayName), ("tileUri", .str p.tileURI),
        ("identifiers", .arr (p.identifiers.map encodeIdentifier))]

/-- `ProfileManagerImpl::UpdateStoredProfiles` (lines 286-332) up to the
writer: the document with one profile entry per `m_profiles` element, in
map iteration order. -/
def encodeStore (st : ProfileStore) : JValue :=
  profilesDoc (st.profiles.map (fun kp => encodeProfile kp.2))

/-- The structured outcome type `ProfileTaskResult`. The class declaration
is not under `src/`; modelled from the spec (§7): a success flag plus an
optional human-readable message (default-constructed: unsuccessful, empty
message). -/
structure ProfileTaskResult where
  success : Bool
  message : String
deriving DecidableEq

/-- A default-constructed `ProfileTaskResult result;`. -/
def defaultProfileTaskResult : ProfileTaskResult := ⟨false, ""⟩

/-- `ProfileManagerImpl::AddProfile` (lines 354-359): returns a completed
task holding a default-constructed result and touches nothing. -/
def addProfile (st : ProfileStore) (_p : ProfileImpl) : ProfileTaskResult × ProfileStore :=
  (defaultProfileTaskResult, st)

/-- `ProfileManagerImpl::SetPrimaryProfile` (lines 361-366): returns a
completed task holding a default-constructed result and touches nothing. -/
def setPrimaryProfile (st : ProfileStore) (_p : ProfileImpl) :
    ProfileTaskResult × ProfileStore :=
  (defaultProfileTaskResult, st)

/-- `ProfileIdentityResult`: the outcome of one `ProcessIdentity` call. The
class declaration is not under `src/`; modelled from the spec (§6):
`Result{tokenType, tokenValue} | Error`, read through `HasSucceeded`,
`GetTokenType`, `GetToken`, `GetError` as `SignIn` does. -/
structure ProfileIdentityResult where
  succeeded : Bool
  tokenType : String
  token : String
  error : String
deriving DecidableEq

/-- Behaviour of the remote backend during one sign-in attempt: the result
of `ConnectRemote` and of `AuthenticateWithTokenBag`, each either success
or a numeric error code. -/
structure BackendBehavior where
  connectResult : Except Int Unit
  authResult : Except Int Unit

/-- Externally observable steps of one sign-in attempt, in order:
a `ProcessIdentity` call for a provider key, the `ConnectRemote` call, the
`AuthenticateWithTokenBag` call, and the `UpdateStoredProfiles` save. -/
inductive SignInEvent
  | resolve (key : String)
  | connect
  | authenticate
  | saveStore
deriving DecidableEq

/-- The final disposition of the `task_completion_event` of `SignIn`:
set to success, set to failure with a message, or never set (the returned
task never completes). -/
inductive SignInOutcome
  | success
  | failure (msg : String)
  | noOutcome
deriving DecidableEq

/-- The handshake tail of `SignIn` (lines 426-459), reached when
`*idx == numIdentifiers`: connect, then authenticate, then save and
succeed; each failure sets the result with the formatted message. -/
def handshake (backend : BackendBehavior) (evs : List SignInEvent) :
    SignInOutcome × List SignInEvent :=
  match backend.connectResult with
  | .error code =>
    (.failure ("Connecting to Terminal failed - error code " ++ toString code ++ "."),
     evs ++ [.connect])
  | .ok _ =>
    match backend.authResult with
    | .error code =>
      (.failure ("Authenticating to Terminal failed - error code " ++ toString code ++ "."),
       evs ++ [.connect, .authenticate])
    | .ok _ => (.success, evs ++ [.connect, .authenticate, .saveStore])

/-- The identifier chain of `SignIn` (lines 392-461): `continueIdentifier`
plus `identifierCB`, unrolled over the remaining identifiers. The provider
map `m_identityProviders` is modelled as `providers`, giving for a provider
key the result its `ProcessIdentity` yields for this (profile, parameters)
pair, or `none` when no provider is registered for the key. When no
provider is registered, the source's lambda body ends without invoking
`ProcessIdentity`, advancing `*idx`, or re-invoking the continuation, so
no further event occurs and the completion event is never set
(`.noOutcome`). On success the token is added to the bag and the chain
continues; on failure the completion event is set to the provider's error
and the remaining identifiers are abandoned. -/
def runChain (providers : String → Option ProfileIdentityResult)
    (backend : BackendBehavior) :
    List ProfileIdentifier → List (String × String) → List SignInEvent →
    SignInOutcome × List (String × String) × List SignInEvent
  | [], bag, evs =>
    let hs := handshake backend evs
    (hs.1, bag, hs.2)
  | id :: rest, bag, evs =>
    match providers id.1 with
    | none => (.noOutcome, bag, evs)
    | some r =>
      if r.succeeded then
        runChain providers backend rest (bag ++ [(r.tokenType, r.token)])
          (evs ++ [.resolve id.1])
      else
        (.failure r.error, bag, evs ++ [.resolve id.1])

/-- `ProfileManagerImpl::SignIn` (lines 375-466): run the identifier chain
over the profile's identifiers starting from an empty token bag. The
returned triple is (completion-event disposition, the token bag's final
contents, the event trace). -/
def signIn (providers : String → Option ProfileIdentityResult)
    (backend : BackendBehavior) (p : ProfileImpl) :
    SignInOutcome × List (String × String) × List SignInEvent :=
  runChain providers backend p.identifiers [] []

/-- The `ProfileTaskResult` the caller's task observes: available exactly
when the completion event was set, and carrying only the success flag and
the message — the token bag is not part of it. -/
def signInResult (providers : String → Option ProfileIdentityResult)
    (backend : BackendBehavior) (p : ProfileImpl) : Option ProfileTaskResult :=
  match (signIn providers backend p).1 with
  | .success => some ⟨true, ""⟩
  | .failure m => some ⟨false, m⟩
  | .noOutcome => none

/-- The match-selection rule as the spec words it: the first profile, in
store enumeration (`m_profileIndices`) order, that contains any identifier
exactly equal to any of the candidate's identifiers. Stated for comparison
with the code's `findMatchingProfile`. -/
def firstEnumMatchSpec (st : ProfileStore) (ids : List ProfileIdentifier) :
    Option (Nat × ProfileImpl) :=
  match st.profileIndices.find? (fun k =>
      match mapFind k st.profiles with
      | some p => ids.any (fun id => hasIdentifier p.identifiers id)
      | none => false) with
  | some k => (mapFind k st.profiles).map (fun p => (k, p))
  | none => none

/-- Closed form of the match scan actually performed by `Initialize`: the
first candidate identifier that matches any stored profile selects the
first such profile in map order; every later candidate identifier
reassigns the selection to the map's first profile whenever that profile
contains it. -/
def selectedMatchSpec (ps : List (Nat × ProfileImpl)) :
    List ProfileIdentifier → Option (Nat × ProfileImpl)
  | [] => none
  | id :: rest =>
    match findMatch ps id with
    | some m =>
      match ps with
      | [] => some m
      | first :: _ =>
        if rest.any (fun i => hasIdentifier first.2.identifiers i) then some first
        else some m
    | none => selectedMatchSpec ps rest

/-- A concrete content hash used by counterexamples and witnesses. -/
def testHash : ProfileIdentifier → Nat
  | ("p", "1") => 1
  | ("q", "1") => 2
  | ("r", "1") => 3
  | ("a", "b") => 5
  | _ => 7

/-- A concrete content hash with a value above 32 bits, exercising the
`size_t`-vs-`uint32` clipping. -/
def bigHash : ProfileIdentifier → Nat := fun _ => 2 ^ 32

/-- Concrete suggestion candidate owning identifier ("p","1"). -/
def cexP : ProfileImpl := ⟨"P", "tp", [("p", "1")], 0, false⟩

/-- Concrete suggestion candidate owning identifier ("q","1"). -/
def cexQ : ProfileImpl := ⟨"Q", "tq", [("q", "1")], 0, false⟩

/-- Concrete suggestion candidate owning identifier ("r","1"). -/
def cexR : ProfileImpl := ⟨"R", "tr", [("r", "1")], 0, false⟩

/-- Concrete suggestion candidate whose identifiers hit `cexR` first (by
identifier order) and `cexQ` second. -/
def cexC : ProfileImpl := ⟨"C", "tc", [("r", "1"), ("q", "1")], 0, false⟩

/-- The store after ingesting `cexP`, `cexQ`, `cexR` (in that order) into
an empty store: map and enumeration order are both P, Q, R. -/
def cexStore3 : ProfileStore :=
  ingestSuggestion testHash
    (ingestSuggestion testHash (ingestSuggestion testHash emptyStore cexP) cexQ) cexR

/-- Concrete suggestion candidate owning identifier ("a","b"). -/
def candAB : ProfileImpl := ⟨"N", "tn", [("a", "b")], 0, false⟩

/-- A well-formed persisted entry with one identifier pair. -/
def goodEntry (nm tile k v : String) : JValue :=
  .obj [("displayName", .str nm), ("tileUri", .str tile),
        ("identifiers", .arr [.arr [.str k, .str v]])]

/-- A persisted entry that is well-formed at entry level but contains one
malformed identifier pair (the number `42` is not an array). -/
def badPairEntry : JValue :=
  .obj [("displayName", .str "B"), ("tileUri", .str "tb"),
        ("identifiers", .arr [.arr [.str "a", .str "b"], .num 42])]

/-- A document with a well-formed entry, an entry containing a malformed
identifier pair, and another well-formed entry. -/
def c4doc : JValue :=
  profilesDoc [goodEntry "A" "ta" "p" "1", badPairEntry, goodEntry "D" "td" "q" "1"]

/-- The profile produced by `ParseStoredProfiles` for a persisted entry
that serialized `p`: same metadata and identifiers, internal identifier
recomputed by the (unclipped) load formula, suggestion flag clear. -/
def decodedProfile (h : ProfileIdentifier → Nat) (p : ProfileImpl) : ProfileImpl :=
  ⟨p.displayName, p.tileURI, p.identifiers, hashKeyRaw h p.identifiers, false⟩

/-- Ingest two suggestion candidates, in order, into an empty store. -/
def ingestTwo (h : ProfileIdentifier → Nat) (c1 c2 : ProfileImpl) : ProfileStore :=
  ingestSuggestion h (ingestSuggestion h emptyStore c1) c2

/-- Concrete suggestion candidate sharing identifier ("p","1") with `cexP`. -/
def cexB : ProfileImpl := ⟨"B", "tb", [("p", "1")], 0, false⟩

/-- A concrete store whose fingerprints agree with the load-path formula
under `testHash` (keys 3 and 6, strictly sorted). -/
def cexStoreRT : ProfileStore :=
  ⟨[(3, ⟨"A", "ta", [("p", "1")], 3, false⟩), (6, ⟨"B", "tb", [("q", "1")], 6, false⟩)],
   [3, 6]⟩

/-- Concrete identity-provider registry for the sign-in scenarios: "a"
resolves successfully, "b" fails with message "boom", anything else is
unregistered. -/
def cexProviders : String → Option ProfileIdentityResult :=
  fun k =>
    if k = "a" then some ⟨true, "ta", "va", ""⟩
    else if k = "b" then some ⟨false, "", "", "boom"⟩
    else none

/-! ## Helper lemmas -/

theorem hasIdentifier_eq_true_iff (ids : List ProfileIdentifier) (id : ProfileIdentifier) :
    hasIdentifier ids id = true ↔ id ∈ ids := by
  induction ids with
  | nil => simp [hasIdentifier]
  | cons x rest ih =>
    unfold hasIdentifier
    by_cases hx : x = id
    · simp [hx]
    · simp only [if_neg hx, ih, List.mem_cons]
      constructor
      · exact fun hm => Or.inr hm
      · rintro (heq | hm)
        · exact absurd heq.symm hx
        · exact hm

theorem hasIdentifier_eq_false_iff (ids : List ProfileIdentifier) (id : ProfileIdentifier) :
    hasIdentifier ids id = false ↔ id ∉ ids := by
  rw [← hasIdentifier_eq_true_iff]
  cases hasIdentifier ids id <;> simp

theorem hashStep_comm (h : ProfileIdentifier → Nat) (acc : Nat) (a b : ProfileIdentifier) :
    hashStep h (hashStep h acc a) b = hashStep h (hashStep h acc b) a := by
  unfold hashStep
  rw [Nat.xor_assoc, Nat.xor_assoc, Nat.xor_comm (3 * h a % u64Mod)]

theorem foldl_hashStep_perm (h : ProfileIdentifier → Nat)
    {l1 l2 : List ProfileIdentifier} (hp : l1.Perm l2) :
    ∀ acc : Nat, l1.foldl (hashStep h) acc = l2.foldl (hashStep h) acc := by
  induction hp with
  | nil => intro acc; rfl
  | cons x _ ih => intro acc; simp only [List.foldl_cons]; exact ih _
  | swap x y l => intro acc; simp only [List.foldl_cons]; rw [hashStep_comm]
  | trans _ _ ih1 ih2 => intro acc; rw [ih1, ih2]

theorem foldl_scanStep_nil_none (ids : List ProfileIdentifier) :
    ids.foldl (scanStep []) none = none := by
  induction ids with
  | nil => rfl
  | cons id rest ih => simpa [scanStep, findMatch] using ih

theorem findMatchingProfile_nil (ids : List ProfileIdentifier) :
    findMatchingProfile [] ids = none :=
  foldl_scanStep_nil_none ids

theorem foldl_scanStep_some (first : Nat × ProfileImpl) (tail : List (Nat × ProfileImpl))
    (ids : List ProfileIdentifier) :
    ∀ m : Nat × ProfileImpl,
      ids.foldl (scanStep (first :: tail)) (some m)
        = if ids.any (fun id => hasIdentifier first.2.identifiers id) then some first
          else some m := by
  induction ids with
  | nil => intro m; simp
  | cons id rest ih =>
    intro m
    have hstep : scanStep (first :: tail) (some m) id
        = if hasIdentifier first.2.identifiers id then some first else some m := rfl
    simp only [List.foldl_cons, List.any_cons, hstep]
    by_cases hid : hasIdentifier first.2.identifiers id = true
    · rw [if_pos hid, ih first]
      simp [hid]
    · have hid' : hasIdentifier first.2.identifiers id = false := by
        cases hval : hasIdentifier first.2.identifiers id
        · rfl
        · exact absurd hval hid
      rw [if_neg hid, ih m]
      simp only [hid', Bool.false_or]

theorem findMatchingProfile_eq_spec (ps : List (Nat × ProfileImpl))
    (ids : List ProfileIdentifier) :
    findMatchingProfile ps ids = selectedMatchSpec ps ids := by
  unfold findMatchingProfile
  induction ids with
  | nil => rfl
  | cons id rest ih =>
    simp only [List.foldl_cons, selectedMatchSpec]
    cases hm : findMatch ps id with
    | none => simpa [scanStep, hm] using ih
    | some m =>
      cases ps with
      | nil => simp [findMatch] at hm
      | cons first tail =>
        simp only [scanStep, hm]
        exact foldl_scanStep_some first tail rest m

theorem findMatchingProfile_mem (ps : List (Nat × ProfileImpl))
    (ids : List ProfileIdentifier) (m : Nat × ProfileImpl)
    (hm : findMatchingProfile ps ids = some m) : m ∈ ps := by
  rw [findMatchingProfile_eq_spec] at hm
  induction ids with
  | nil => cases hm
  | cons id rest ih =>
    unfold selectedMatchSpec at hm
    cases hfm : findMatch ps id with
    | none => rw [hfm] at hm; exact ih hm
    | some m' =>
      cases ps with
      | nil => simp [findMatch] at hfm
      | cons first tail =>
        have hm' : m' ∈ first :: tail := List.mem_of_find?_eq_some hfm
        simp only [hfm] at hm
        by_cases hany : (rest.any fun i => hasIdentifier first.2.identifiers i) = true
        · rw [if_pos hany] at hm
          exact Option.some_inj.mp hm ▸ List.mem_cons_self first tail
        · rw [if_neg hany] at hm
          exact Option.some_inj.mp hm ▸ hm'

theorem findMatchingProfile_none_of_no_match (ps : List (Nat × ProfileImpl))
    (ids : List ProfileIdentifier)
    (hno : ∀ id ∈ ids, ∀ kp ∈ ps, hasIdentifier kp.2.identifiers id = false) :
    findMatchingProfile ps ids = none := by
  unfold findMatchingProfile
  induction ids with
  | nil => rfl
  | cons id rest ih =>
    simp only [List.foldl_cons]
    have h0 : scanStep ps none id = none := by
      unfold scanStep findMatch
      rw [List.find?_eq_none]
      intro kp hkp
      simp [hno id (List.mem_cons_self id rest) kp hkp]
    rw [h0]
    exact ih fun i hi kp hkp => hno i (List.mem_cons_of_mem id hi) kp hkp

theorem findMatchingProfile_single (k : Nat) (p : ProfileImpl)
    (ids : List ProfileIdentifier) :
    findMatchingProfile [(k, p)] ids
      = if ids.any (fun id => hasIdentifier p.identifiers id) then some (k, p)
        else none := by
  unfold findMatchingProfile
  induction ids with
  | nil => rfl
  | cons id rest ih =>
    simp only [List.foldl_cons, List.any_cons]
    by_cases hid : hasIdentifier p.identifiers id = true
    · have h1 : scanStep [(k, p)] none id = some (k, p) := by
        simp [scanStep, findMatch, List.find?, hid]
      rw [h1, foldl_scanStep_some (k, p) [] rest (k, p)]
      simp [hid]
    · have hid' : hasIdentifier p.identifiers id = false := by
        cases hval : hasIdentifier p.identifiers id
        · rfl
        · exact absurd hval hid
      have h1 : scanStep [(k, p)] none id = none := by
        simp [scanStep, findMatch, List.find?, hid']
      rw [h1, ih]
      simp only [hid', Bool.false_or]

theorem mapFind_mapInsert_self (k : Nat) (v : ProfileImpl) (l : List (Nat × ProfileImpl)) :
    mapFind k (mapInsert k v l) = some v := by
  induction l with
  | nil => simp [mapInsert, mapFind]
  | cons kv rest ih =>
    obtain ⟨k', v'⟩ := kv
    unfold mapInsert
    by_cases h1 : k < k'
    · simp [h1, mapFind]
    · by_cases h2 : k = k'
      · simp [h1, h2, mapFind]
      · simp [h1, h2, mapFind, ih]

theorem mapFind_mapInsert_ne (k k' : Nat) (hne : k' ≠ k) (v : ProfileImpl)
    (l : List (Nat × ProfileImpl)) :
    mapFind k' (mapInsert k v l) = mapFind k' l := by
  induction l with
  | nil => simp [mapInsert, mapFind, hne]
  | cons kv rest ih =>
    obtain ⟨k'', v''⟩ := kv
    unfold mapInsert
    by_cases h1 : k < k''
    · simp [h1, mapFind, hne]
    · by_cases h2 : k = k''
      · subst h2
        simp [h1, mapFind, hne]
      · simp [h1, h2, mapFind, ih]

theorem mapFind_some_mem (k : Nat) (l : List (Nat × ProfileImpl)) (p : ProfileImpl)
    (h : mapFind k l = some p) : (k, p) ∈ l := by
  induction l with
  | nil => cases h
  | cons kv rest ih =>
    obtain ⟨k', v'⟩ := kv
    unfold mapFind at h
    by_cases hk : k = k'
    · rw [if_pos hk] at h
      subst hk
      rw [Option.some_inj.mp h]
      exact List.mem_cons_self _ _
    · rw [if_neg hk] at h
      exact List.mem_cons_of_mem _ (ih h)

theorem pairwise_mem_mapFind (l : List (Nat × ProfileImpl))
    (hwf : List.Pairwise (fun a b => a.1 < b.1) l) (k : Nat) (p : ProfileImpl)
    (hm : (k, p) ∈ l) : mapFind k l = some p := by
  induction l with
  | nil => cases hm
  | cons kv rest ih =>
    obtain ⟨k', v'⟩ := kv
    rcases List.mem_cons.mp hm with heq | htail
    · rw [show k = k' from congrArg Prod.fst heq]
      simp [mapFind, (Prod.mk.injEq _ _ _ _).mp heq]
    · have hlt : k' < k := (List.pairwise_cons.mp hwf).1 (k, p) htail
      unfold mapFind
      rw [if_neg (by omega)]
      exact ih (List.pairwise_cons.mp hwf).2 htail

theorem mapInsert_length_of_find (k : Nat) (v : ProfileImpl)
    (l : List (Nat × ProfileImpl)) (p : ProfileImpl)
    (hwf : List.Pairwise (fun a b => a.1 < b.1) l) (hf : mapFind k l = some p) :
    (mapInsert k v l).length = l.length := by
  induction l with
  | nil => cases hf
  | cons kv rest ih =>
    obtain ⟨k', v'⟩ := kv
    unfold mapFind at hf
    unfold mapInsert
    by_cases h2 : k = k'
    · rw [if_neg (by omega), if_pos h2]
      simp
    · rw [if_neg h2] at hf
      have hmem := mapFind_some_mem k rest p hf
      have hk'k : k' < k := (List.pairwise_cons.mp hwf).1 (k, p) hmem
      rw [if_neg (by omega), if_neg h2]
      simp [ih (List.pairwise_cons.mp hwf).2 hf]

theorem mapInsert_gt (k : Nat) (v : ProfileImpl) (l : List (Nat × ProfileImpl))
    (hgt : ∀ kp ∈ l, kp.1 < k) :
    mapInsert k v l = l ++ [(k, v)] := by
  induction l with
  | nil => rfl
  | cons kv rest ih =>
    obtain ⟨k', v'⟩ := kv
    have hk : k' < k := hgt (k', v') (List.mem_cons_self _ _)
    unfold mapInsert
    rw [if_neg (by omega), if_neg (by omega)]
    simp [ih fun kp hm => hgt kp (List.mem_cons_of_mem _ hm)]

theorem mapInsert_singleton_ne_length (k k' : Nat) (hne : k ≠ k') (v w : ProfileImpl) :
    (mapInsert k v [(k', w)]).length = 2 := by
  unfold mapInsert
  by_cases h1 : k < k'
  · rw [if_pos h1]
    rfl
  · rw [if_neg h1, if_neg hne]
    rfl

theorem mapInsert_singleton_self (k : Nat) (v w : ProfileImpl) :
    mapInsert k v [(k, w)] = [(k, v)] := by
  unfold mapInsert
  rw [if_neg (Nat.lt_irrefl _), if_pos rfl]

theorem parseIdentifiers_go_snd (h : ProfileIdentifier → Nat) (ivs : List JValue) :
    ∀ acc : List ProfileIdentifier × Nat,
      acc.2 = acc.1.foldl (hashStep h) 0 →
      (ivs.foldl (parseIdentifiersStep h) acc).2
        = ((ivs.foldl (parseIdentifiersStep h) acc).1).foldl (hashStep h) 0 := by
  induction ivs with
  | nil => intro acc hacc; exact hacc
  | cons v rest ih =>
    intro acc hacc
    simp only [List.foldl_cons]
    apply ih
    cases hpv : parseIdentifier v with
    | none => simp only [parseIdentifiersStep, hpv]; exact hacc
    | some id =>
      simp only [parseIdentifiersStep, hpv, List.foldl_append, List.foldl_cons,
        List.foldl_nil]
      rw [hacc]

theorem parseIdentifiers_snd (h : ProfileIdentifier → Nat) (ivs : List JValue) :
    (parseIdentifiers h ivs).2 = hashKeyRaw h (parseIdentifiers h ivs).1 :=
  parseIdentifiers_go_snd h ivs ([], 0) rfl

theorem parseIdentifiers_filter_go (h : ProfileIdentifier → Nat) (ivs : List JValue) :
    ∀ acc : List ProfileIdentifier × Nat,
      ivs.foldl (parseIdentifiersStep h) acc
        = (ivs.filter fun v => (parseIdentifier v).isSome).foldl
            (parseIdentifiersStep h) acc := by
  induction ivs with
  | nil => intro acc; rfl
  | cons v rest ih =>
    intro acc
    simp only [List.foldl_cons, List.filter_cons]
    cases hpv : parseIdentifier v with
    | none =>
      have hstep : parseIdentifiersStep h acc v = acc := by
        simp [parseIdentifiersStep, hpv]
      simp only [hpv, Option.isSome_none, Bool.false_eq_true, if_false, hstep]
      exact ih acc
    | some id =>
      simp only [hpv, Option.isSome_some, if_true, List.foldl_cons]
      exact ih _

theorem parseIdentifiers_encode (h : ProfileIdentifier → Nat)
    (ids : List ProfileIdentifier) :
    ∀ acc : List ProfileIdentifier × Nat,
      (ids.map encodeIdentifier).foldl (parseIdentifiersStep h) acc
        = (acc.1 ++ ids, ids.foldl (hashStep h) acc.2) := by
  induction ids with
  | nil => intro acc; simp
  | cons id rest ih =>
    intro acc
    have hstep : parseIdentifiersStep h acc (encodeIdentifier id)
        = (acc.1 ++ [id], hashStep h acc.2 id) := by
      simp [parseIdentifiersStep, parseIdentifier, encodeIdentifier]
    simp only [List.map_cons, List.foldl_cons, hstep, ih, List.append_assoc,
      List.singleton_append]

theorem parseEntry_encodeProfile (h : ProfileIdentifier → Nat) (acc : ProfileStore)
    (p : ProfileImpl) :
    parseEntry h acc (encodeProfile p)
      = ⟨mapInsert (hashKeyRaw h p.identifiers) (decodedProfile h p) acc.profiles,
         acc.profileIndices ++ [hashKeyRaw h p.identifiers]⟩ := by
  have hshape : entryShape (encodeProfile p)
      = some (p.displayName, p.tileURI, p.identifiers.map encodeIdentifier) := rfl
  have hpi : parseIdentifiers h (p.identifiers.map encodeIdentifier)
      = (p.identifiers, hashKeyRaw h p.identifiers) := by
    have := parseIdentifiers_encode h p.identifiers ([], 0)
    simpa [parseIdentifiers, hashKeyRaw] using this
  unfold parseEntry
  rw [hshape]
  simp only [hpi]
  rfl

theorem decode_fold_encoded (h : ProfileIdentifier → Nat) :
    ∀ (ps : List (Nat × ProfileImpl)) (acc : ProfileStore),
      (∀ kp ∈ ps, ∀ kq ∈ acc.profiles, kq.1 < kp.1) →
      List.Pairwise (fun a b => a.1 < b.1) ps →
      (∀ kp ∈ ps, kp.1 = hashKeyRaw h kp.2.identifiers) →
      (ps.map fun kp => encodeProfile kp.2).foldl (parseEntry h) acc
        = ⟨acc.profiles ++ ps.map fun kp => (kp.1, decodedProfile h kp.2),
           acc.profileIndices ++ ps.map fun kp => kp.1⟩ := by
  intro ps
  induction ps with
  | nil => intro acc _ _ _; simp
  | cons kp rest ih =>
    intro acc hgt hpw hfp
    obtain ⟨k, p⟩ := kp
    have hk : k = hashKeyRaw h p.identifiers :=
      hfp (k, p) (List.mem_cons_self _ _)
    have hins : mapInsert k (decodedProfile h p) acc.profiles
        = acc.profiles ++ [(k, decodedProfile h p)] :=
      mapInsert_gt k _ _ fun kq hq => hgt (k, p) (List.mem_cons_self _ _) kq hq
    simp only [List.map_cons, List.foldl_cons, parseEntry_encodeProfile, ← hk, hins]
    rw [ih ⟨acc.profiles ++ [(k, decodedProfile h p)], acc.profileIndices ++ [k]⟩
      ?_ (List.pairwise_cons.mp hpw).2 fun kq hq => hfp kq (List.mem_cons_of_mem _ hq)]
    · simp [List.append_assoc]
    · intro kq hq kr hr
      rcases List.mem_append.mp hr with hacc | hsing
      · exact hgt kq (List.mem_cons_of_mem _ hq) kr hacc
      · have : kr = (k, decodedProfile h p) := by simpa using hsing
        rw [this]
        exact (List.pairwise_cons.mp hpw).1 kq hq

theorem runChain_ok_then_fail (providers : String → Option ProfileIdentityResult)
    (backend : BackendBehavior) (failId : ProfileIdentifier)
    (idsRest : List ProfileIdentifier) (rf : ProfileIdentityResult)
    (hfp : providers failId.1 = some rf) (hff : rf.succeeded = false) :
    ∀ (idsOk : List ProfileIdentifier) (rs : List ProfileIdentityResult),
      List.Forall₂ (fun id r => providers id.1 = some r ∧ r.succeeded = true) idsOk rs →
      ∀ (bag : List (String × String)) (evs : List SignInEvent),
        runChain providers backend (idsOk ++ failId :: idsRest) bag evs
          = (.failure rf.error,
             bag ++ rs.map fun r => (r.tokenType, r.token),
             evs ++ (idsOk ++ [failId]).map fun id => SignInEvent.resolve id.1) := by
  intro idsOk rs hall
  induction hall with
  | nil =>
    intro bag evs
    simp only [List.nil_append, runChain, hfp, hff, Bool.false_eq_true, if_false,
      List.map_nil, List.append_nil, List.map_cons]
  | @cons id r idsOk' rs' hid _ ih =>
    intro bag evs
    simp only [List.cons_append, runChain, hid.1, hid.2, if_true, List.append_eq]
    rw [ih]
    simp [List.append_assoc]

/-! ## Claim theorems -/

/-- C1: the claim states that an identifier whose provider key has no
registered identity provider is silently skipped, the chain advancing to
the next identifier and the orchestration still reporting an outcome. The
code instead does nothing in that case: with no provider registered for
the (only, resp. second) identifier, the completion event is never set
(`noOutcome`), no handshake event occurs, and — in the second scenario —
the already-acquired token for the first identifier is simply abandoned
with the stalled attempt. -/
theorem c1_unregistered_provider_stalls :
    signIn (fun _ => none) ⟨.ok (), .ok ()⟩ ⟨"P", "t", [("steam", "1")], 0, false⟩
      = (.noOutcome, [], []) ∧
    signIn cexProviders ⟨.ok (), .ok ()⟩ ⟨"P", "t", [("a", "1"), ("x", "2")], 0, false⟩
      = (.noOutcome, [("ta", "va")], [.resolve "a"]) ∧
    signInResult (fun _ => none) ⟨.ok (), .ok ()⟩ ⟨"P", "t", [("steam", "1")], 0, false⟩
      = none := by
  refine ⟨rfl, ?_, rfl⟩
  rfl

/-- C6: the fingerprint computation is invariant under any permutation of
the identifier sequence — for the raw accumulated hash key and hence for
both the clipped (ingestion) and unclipped (load) fingerprints. -/
theorem c6_fingerprint_perm_invariant (h : ProfileIdentifier → Nat)
    (ids ids' : List ProfileIdentifier) (hp : ids.Perm ids') :
    hashKeyRaw h ids' = hashKeyRaw h ids ∧
    fingerprintInit h ids' = fingerprintInit h ids ∧
    fingerprintParse h ids' = fingerprintParse h ids := by
  have hbase : hashKeyRaw h ids' = hashKeyRaw h ids :=
    (foldl_hashStep_perm h hp 0).symm
  refine ⟨hbase, ?_, ?_⟩
  · unfold fingerprintInit; rw [hbase]
  · unfold fingerprintParse; rw [hbase]

/-- Witness for C6 at a concrete two-element sequence and its swap. -/
theorem c6_fingerprint_perm_invariant_witness :
    hashKeyRaw testHash [("q", "1"), ("p", "1")]
        = hashKeyRaw testHash [("p", "1"), ("q", "1")] ∧
    fingerprintInit testHash [("q", "1"), ("p", "1")]
        = fingerprintInit testHash [("p", "1"), ("q", "1")] ∧
    fingerprintParse testHash [("q", "1"), ("p", "1")]
        = fingerprintParse testHash [("p", "1"), ("q", "1")] :=
  c6_fingerprint_perm_invariant testHash [("p", "1"), ("q", "1")]
    [("q", "1"), ("p", "1")] (List.Perm.swap ("q", "1") ("p", "1") [])

/-- C9: when the provider of identifier k fails after identifiers 0..k-1
resolved successfully, the attempt ends as `Failed` with that provider's
error message, the token bag holds exactly the tokens of identifiers
0..k-1 (and the caller-visible result carries none of them), the event
trace consists of the resolution calls for identifiers 0..k only, and in
particular no connect, authenticate or store-save occurs. -/
theorem c9_provider_failure_aborts (providers : String → Option ProfileIdentityResult)
    (backend : BackendBehavior) (dn tu : String) (fp : Nat) (sg : Bool)
    (idsOk : List ProfileIdentifier) (failId : ProfileIdentifier)
    (idsRest : List ProfileIdentifier) (rs : List ProfileIdentityResult)
    (rf : ProfileIdentityResult)
    (hok : List.Forall₂ (fun id r => providers id.1 = some r ∧ r.succeeded = true) idsOk rs)
    (hfp : providers failId.1 = some rf) (hff : rf.succeeded = false) :
    signIn providers backend ⟨dn, tu, idsOk ++ failId :: idsRest, fp, sg⟩
      = (.failure rf.error,
         rs.map fun r => (r.tokenType, r.token),
         (idsOk ++ [failId]).map fun id => SignInEvent.resolve id.1) ∧
    signInResult providers backend ⟨dn, tu, idsOk ++ failId :: idsRest, fp, sg⟩
      = some ⟨false, rf.error⟩ ∧
    SignInEvent.connect ∉ ((idsOk ++ [failId]).map fun id => SignInEvent.resolve id.1) ∧
    SignInEvent.authenticate ∉ ((idsOk ++ [failId]).map fun id => SignInEvent.resolve id.1) ∧
    SignInEvent.saveStore ∉ ((idsOk ++ [failId]).map fun id => SignInEvent.resolve id.1) := by
  have hrun := runChain_ok_then_fail providers backend failId idsRest rf hfp hff
    idsOk rs hok [] []
  have hsi : signIn providers backend ⟨dn, tu, idsOk ++ failId :: idsRest, fp, sg⟩
      = (.failure rf.error,
         rs.map fun r => (r.tokenType, r.token),
         (idsOk ++ [failId]).map fun id => SignInEvent.resolve id.1) := by
    unfold signIn
    simpa using hrun
  refine ⟨hsi, ?_, by simp, by simp, by simp⟩
  unfold signInResult
  rw [hsi]

/-- Witness for C9: first identifier resolves via provider "a", the second
fails via provider "b" with message "boom", a third is never reached. -/
theorem c9_provider_failure_aborts_witness :
    signIn cexProviders ⟨.ok (), .ok ()⟩
        ⟨"P", "t", [("a", "1"), ("b", "2"), ("a", "3")], 0, false⟩
      = (.failure "boom", [("ta", "va")], [.resolve "a", .resolve "b"]) ∧
    signInResult cexProviders ⟨.ok (), .ok ()⟩
        ⟨"P", "t", [("a", "1"), ("b", "2"), ("a", "3")], 0, false⟩
      = some ⟨false, "boom"⟩ ∧
    SignInEvent.connect ∉ [SignInEvent.resolve "a", SignInEvent.resolve "b"] ∧
    SignInEvent.authenticate ∉ [SignInEvent.resolve "a", SignInEvent.resolve "b"] ∧
    SignInEvent.saveStore ∉ [SignInEvent.resolve "a", SignInEvent.resolve "b"] := by
  have h := c9_provider_failure_aborts cexProviders ⟨.ok (), .ok ()⟩ "P" "t" 0 false
    [("a", "1")] ("b", "2") [("a", "3")] [⟨true, "ta", "va", ""⟩] ⟨false, "", "", "boom"⟩
    (List.Forall₂.cons (by constructor <;> rfl) List.Forall₂.nil) rfl rfl
  exact h

/-- C10: `AddProfile` and `SetPrimaryProfile` are no-ops: each returns a
completed default-constructed result and leaves both the fingerprint map
and the enumeration order untouched. -/
theorem c10_addProfile_setPrimaryProfile_noop (st : ProfileStore) (p : ProfileImpl) :
    addProfile st p = (defaultProfileTaskResult, st) ∧
    setPrimaryProfile st p = (defaultProfileTaskResult, st) ∧
    (addProfile st p).2.profiles = st.profiles ∧
    (addProfile st p).2.profileIndices = st.profileIndices ∧
    (setPrimaryProfile st p).2.profiles = st.profiles ∧
    (setPrimaryProfile st p).2.profileIndices = st.profileIndices :=
  ⟨rfl, rfl, rfl, rfl, rfl, rfl⟩

/-- C2 counterexample: for a hash value of 2^32, the load path assigns the
unmasked key 3·2^32 to the same single-identifier set for which the
ingestion path assigns the masked key 0 — so the load-path fingerprint is
not masked to 32 bits and the two paths disagree on an identical
identifier set. -/
theorem c2_counterexample :
    (parseStoredProfiles bigHash emptyStore
        (profilesDoc [goodEntry "N" "tn" "a" "b"])).profileIndices = [3 * 2 ^ 32] ∧
    (ingestSuggestion bigHash emptyStore candAB).profileIndices = [0] ∧
    candAB.identifiers = [("a", "b")] ∧
    (parseIdentifiers bigHash [.arr [.str "a", .str "b"]]).1 = [("a", "b")] ∧
    (3 * 2 ^ 32 : Nat) % 2 ^ 32 = 0 ∧
    (3 * 2 ^ 32 : Nat) ≠ 0 := by
  refine ⟨by decide, by decide, rfl, by decide, by decide, by decide⟩

/-- C2 amended: the ingestion path assigns the 32-bit-masked XOR while the
load path assigns the raw (unmasked) XOR of the parsed identifiers; the
two formulas agree exactly when the raw XOR fits in 32 bits. -/
theorem c2_amended_fingerprint_paths (h : ProfileIdentifier → Nat) (cand : ProfileImpl)
    (dn tu : String) (ivs : List JValue) :
    (ingestSuggestion h emptyStore cand).profileIndices
      = [hashKeyRaw h cand.identifiers % u32Mod] ∧
    (parseStoredProfiles h emptyStore
        (profilesDoc [JValue.obj [("displayName", .str dn), ("tileUri", .str tu),
          ("identifiers", .arr ivs)]])).profileIndices
      = [hashKeyRaw h (parseIdentifiers h ivs).1] ∧
    (hashKeyRaw h (parseIdentifiers h ivs).1 < u32Mod →
      hashKeyRaw h (parseIdentifiers h ivs).1 % u32Mod
        = hashKeyRaw h (parseIdentifiers h ivs).1) := by
  refine ⟨?_, ?_, fun hlt => Nat.mod_eq_of_lt hlt⟩
  · simp only [ingestSuggestion, emptyStore, findMatchingProfile_nil]
    rfl
  · have hdoc : parseStoredProfiles h emptyStore
        (profilesDoc [JValue.obj [("displayName", .str dn), ("tileUri", .str tu),
          ("identifiers", .arr ivs)]])
        = parseEntry h emptyStore
            (JValue.obj [("displayName", .str dn), ("tileUri", .str tu),
              ("identifiers", .arr ivs)]) := rfl
    have hshape : entryShape (JValue.obj [("displayName", .str dn), ("tileUri", .str tu),
          ("identifiers", .arr ivs)]) = some (dn, tu, ivs) := rfl
    rw [hdoc]
    simp only [parseEntry, hshape]
    simp [parseIdentifiers_snd, emptyStore]

/-- Witness for the amended C2 at a concrete candidate and document whose
raw XOR fits in 32 bits. -/
theorem c2_amended_fingerprint_paths_witness :
    (ingestSuggestion testHash emptyStore candAB).profileIndices
      = [hashKeyRaw testHash candAB.identifiers % u32Mod] ∧
    (parseStoredProfiles testHash emptyStore
        (profilesDoc [JValue.obj [("displayName", .str "N"), ("tileUri", .str "tn"),
          ("identifiers", .arr [.arr [.str "a", .str "b"]])]])).profileIndices
      = [hashKeyRaw testHash (parseIdentifiers testHash [.arr [.str "a", .str "b"]]).1] ∧
    hashKeyRaw testHash (parseIdentifiers testHash [.arr [.str "a", .str "b"]]).1 % u32Mod
      = hashKeyRaw testHash (parseIdentifiers testHash [.arr [.str "a", .str "b"]]).1 := by
  have h := c2_amended_fingerprint_paths testHash candAB "N" "tn"
    [.arr [.str "a", .str "b"]]
  exact ⟨h.1, h.2.1, h.2.2 (by decide)⟩

/-- C3 counterexample: in the store P, Q, R (enumeration order = key order
= [3, 6, 9]), the candidate with identifiers [("r","1"), ("q","1")] has Q
(key 6) as the first profile in enumeration order containing one of its
identifiers — yet the scan selects R (key 9): Q keeps its metadata and R
receives the candidate's. -/
theorem c3_counterexample :
    cexStore3.profileIndices = [3, 6, 9] ∧
    firstEnumMatchSpec cexStore3 cexC.identifiers
      = some (6, ⟨"Q", "tq", [("q", "1")], 6, true⟩) ∧
    mapFind 6 (ingestSuggestion testHash cexStore3 cexC).profiles
      = some ⟨"Q", "tq", [("q", "1")], 6, true⟩ ∧
    mapFind 9 (ingestSuggestion testHash cexStore3 cexC).profiles
      = some ⟨"C", "tc", [("r", "1")], 9, true⟩ := by
  refine ⟨by decide, by decide, by decide, by decide⟩

/-- C3 amended: the scan's selection follows candidate-identifier order
over the mapping's key order — the first candidate identifier matching any
stored profile selects the first such profile, and each later candidate
identifier reassigns the selection to the mapping's first profile whenever
that profile contains it; it is not in general the first profile in
enumeration order containing a matching identifier. -/
theorem c3_amended_match_selection_rule (ps : List (Nat × ProfileImpl))
    (ids : List ProfileIdentifier) :
    findMatchingProfile ps ids = selectedMatchSpec ps ids :=
  findMatchingProfile_eq_spec ps ids

/-- C4 counterexample: the entry "B" contains a malformed identifier pair
(the number 42), yet it is not skipped: all three entries of the document
are inserted, "B" keeping its single well-formed pair. -/
theorem c4_counterexample :
    (parseStoredProfiles testHash emptyStore c4doc).profileIndices = [3, 15, 6] ∧
    mapFind 15 (parseStoredProfiles testHash emptyStore c4doc).profiles
      = some ⟨"B", "tb", [("a", "b")], 15, false⟩ ∧
    getNumProfiles (parseStoredProfiles testHash emptyStore c4doc) = 3 := by
  refine ⟨by decide, by decide, by decide⟩

/-- C4 amended: an entry failing the entry-level guards (non-object,
missing or wrong-typed displayName/tileUri/identifiers) is skipped without
affecting its siblings, while a malformed identifier pair only causes that
pair to be dropped — the identifier loop behaves as if the malformed pairs
were filtered out and the entry itself is still inserted. -/
theorem c4_amended_skip_granularity (h : ProfileIdentifier → Nat) (st : ProfileStore)
    (pre post : List JValue) (bad : JValue) (hbad : entryShape bad = none) :
    parseStoredProfiles h st (profilesDoc (pre ++ bad :: post))
      = parseStoredProfiles h st (profilesDoc (pre ++ post)) ∧
    ∀ ivs : List JValue,
      parseIdentifiers h ivs
        = parseIdentifiers h (ivs.filter fun v => (parseIdentifier v).isSome) := by
  constructor
  · show (pre ++ bad :: post).foldl (parseEntry h) st
        = (pre ++ post).foldl (parseEntry h) st
    rw [List.foldl_append, List.foldl_append, List.foldl_cons]
    have hskip : parseEntry h (pre.foldl (parseEntry h) st) bad
        = pre.foldl (parseEntry h) st := by
      unfold parseEntry
      rw [hbad]
    rw [hskip]
  · intro ivs
    exact parseIdentifiers_filter_go h ivs ([], 0)

/-- Witness for the amended C4: a non-object entry between two well-formed
entries is skipped, and a malformed pair is dropped as if filtered. -/
theorem c4_amended_skip_granularity_witness :
    parseStoredProfiles testHash emptyStore
        (profilesDoc [goodEntry "A" "ta" "p" "1", JValue.num 7, goodEntry "D" "td" "q" "1"])
      = parseStoredProfiles testHash emptyStore
          (profilesDoc [goodEntry "A" "ta" "p" "1", goodEntry "D" "td" "q" "1"]) ∧
    parseIdentifiers testHash [.arr [.str "a", .str "b"], .num 42]
      = parseIdentifiers testHash
          ([JValue.arr [.str "a", .str "b"], JValue.num 42].filter
            fun v => (parseIdentifier v).isSome) := by
  have h := c4_amended_skip_granularity testHash emptyStore [goodEntry "A" "ta" "p" "1"]
    [goodEntry "D" "td" "q" "1"] (JValue.num 7) rfl
  exact ⟨h.1, h.2 [.arr [.str "a", .str "b"], .num 42]⟩

/-- C5 counterexample: a store built by ingesting one candidate under a
hash of 2^32 carries the masked fingerprint 0, but decoding its encoding
recomputes the unmasked fingerprint 3·2^32: the round trip does not
reproduce the fingerprints. -/
theorem c5_counterexample :
    (ingestSuggestion bigHash emptyStore candAB).profileIndices = [0] ∧
    (parseStoredProfiles bigHash emptyStore
        (encodeStore (ingestSuggestion bigHash emptyStore candAB))).profileIndices
      = [12884901888] ∧
    mapFind 0 (parseStoredProfiles bigHash emptyStore
        (encodeStore (ingestSuggestion bigHash emptyStore candAB))).profiles = none ∧
    (0 : Nat) ≠ 12884901888 := by
  refine ⟨by decide, by decide, by decide, by decide⟩

/-- C5 amended: decoding the encoding of a store reproduces every
profile's key, display metadata and identifier sequence — provided each
stored fingerprint equals the load-path (unmasked) hash of its identifiers,
as holds for any store produced by decoding; fingerprints that were
assigned masked (ingestion path) are in general not reproduced. -/
theorem c5_amended_roundtrip (h : ProfileIdentifier → Nat) (st : ProfileStore)
    (hwf : StoreWF st)
    (hfp : ∀ kp ∈ st.profiles, kp.1 = hashKeyRaw h kp.2.identifiers) :
    (parseStoredProfiles h emptyStore (encodeStore st)).profiles.map
        (fun kp => (kp.1, kp.2.displayName, kp.2.tileURI, kp.2.identifiers))
      = st.profiles.map
          (fun kp => (kp.1, kp.2.displayName, kp.2.tileURI, kp.2.identifiers)) ∧
    (parseStoredProfiles h emptyStore (encodeStore st)).profileIndices
      = st.profiles.map fun kp => kp.1 := by
  have hdec : parseStoredProfiles h emptyStore (encodeStore st)
      = ⟨st.profiles.map fun kp => (kp.1, decodedProfile h kp.2),
         st.profiles.map fun kp => kp.1⟩ := by
    show (st.profiles.map fun kp => encodeProfile kp.2).foldl (parseEntry h) emptyStore = _
    rw [decode_fold_encoded h st.profiles emptyStore
      (fun kp _ kq hq => absurd hq (List.not_mem_nil kq)) hwf hfp]
    rfl
  rw [hdec]
  constructor
  · simp only [List.map_map]
    rfl
  · rfl

/-- Witness for the amended C5 on a concrete two-profile store whose keys
equal the load-path hashes of their identifier lists. -/
theorem c5_amended_roundtrip_witness :
    (parseStoredProfiles testHash emptyStore (encodeStore cexStoreRT)).profiles.map
        (fun kp => (kp.1, kp.2.displayName, kp.2.tileURI, kp.2.identifiers))
      = cexStoreRT.profiles.map
          (fun kp => (kp.1, kp.2.displayName, kp.2.tileURI, kp.2.identifiers)) ∧
    (parseStoredProfiles testHash emptyStore (encodeStore cexStoreRT)).profileIndices
      = cexStoreRT.profiles.map fun kp => kp.1 :=
  c5_amended_roundtrip testHash cexStoreRT (by decide) (by decide)

/-- C7: when the scan finds a matching profile (k, p), ingestion inserts
nothing — the enumeration order and the map size are unchanged — and the
only modification is that profile k's displayName and tileURI become the
candidate's, its identifier list and suggestion flag (and every other
profile) being left untouched. -/
theorem c7_match_overwrites_metadata_only (h : ProfileIdentifier → Nat)
    (st : ProfileStore) (cand : ProfileImpl) (k : Nat) (p : ProfileImpl)
    (hwf : StoreWF st)
    (hm : findMatchingProfile st.profiles cand.identifiers = some (k, p)) :
    (ingestSuggestion h st cand).profileIndices = st.profileIndices ∧
    (ingestSuggestion h st cand).profiles.length = st.profiles.length ∧
    mapFind k (ingestSuggestion h st cand).profiles
      = some ⟨cand.displayName, cand.tileURI, p.identifiers, p.internalIdentifier,
          p.isSuggestion⟩ ∧
    ∀ k', k' ≠ k →
      mapFind k' (ingestSuggestion h st cand).profiles = mapFind k' st.profiles := by
  have hst : ingestSuggestion h st cand
      = ⟨mapInsert k ⟨cand.displayName, cand.tileURI, p.identifiers, p.internalIdentifier,
            p.isSuggestion⟩ st.profiles,
         st.profileIndices⟩ := by
    simp only [ingestSuggestion, hm]
  have hfind : mapFind k st.profiles = some p :=
    pairwise_mem_mapFind st.profiles hwf k p (findMatchingProfile_mem _ _ _ hm)
  rw [hst]
  exact ⟨rfl, mapInsert_length_of_find k _ st.profiles p hwf hfind,
    mapFind_mapInsert_self _ _ _,
    fun k' hk' => mapFind_mapInsert_ne k k' hk' _ _⟩

/-- Witness for C7: ingesting the concrete candidate into the three-profile
store updates only profile 9's metadata; profile 6 is untouched. -/
theorem c7_match_overwrites_metadata_only_witness :
    (ingestSuggestion testHash cexStore3 cexC).profileIndices
      = cexStore3.profileIndices ∧
    (ingestSuggestion testHash cexStore3 cexC).profiles.length
      = cexStore3.profiles.length ∧
    mapFind 9 (ingestSuggestion testHash cexStore3 cexC).profiles
      = some ⟨cexC.displayName, cexC.tileURI, [("r", "1")], 9, true⟩ ∧
    mapFind 6 (ingestSuggestion testHash cexStore3 cexC).profiles
      = mapFind 6 cexStore3.profiles := by
  have h := c7_match_overwrites_metadata_only testHash cexStore3 cexC 9
    ⟨"R", "tr", [("r", "1")], 9, true⟩ (by decide) (by decide)
  exact ⟨h.1, h.2.1, h.2.2.1, h.2.2.2 6 (by decide)⟩

/-- C8: ingesting two candidates with disjoint identifier sets (and
distinct computed fingerprints) into an empty store yields two distinct
entries, each carrying its own metadata; ingesting two candidates sharing
an identifier yields exactly one entry carrying the second candidate's
display metadata over the first candidate's identifiers. -/
theorem c8_disjoint_vs_shared (h : ProfileIdentifier → Nat) (c1 c2 : ProfileImpl) :
    ((∀ id ∈ c2.identifiers, id ∉ c1.identifiers) →
      fingerprintInit h c1.identifiers ≠ fingerprintInit h c2.identifiers →
      getNumProfiles (ingestTwo h c1 c2) = 2 ∧
      (ingestTwo h c1 c2).profiles.length = 2 ∧
      mapFind (fingerprintInit h c1.identifiers) (ingestTwo h c1 c2).profiles
        = some ⟨c1.displayName, c1.tileURI, c1.identifiers,
            fingerprintInit h c1.identifiers, true⟩ ∧
      mapFind (fingerprintInit h c2.identifiers) (ingestTwo h c1 c2).profiles
        = some ⟨c2.displayName, c2.tileURI, c2.identifiers,
            fingerprintInit h c2.identifiers, true⟩) ∧
    ((∃ id ∈ c2.identifiers, id ∈ c1.identifiers) →
      getNumProfiles (ingestTwo h c1 c2) = 1 ∧
      (ingestTwo h c1 c2).profiles
        = [(fingerprintInit h c1.identifiers,
            ⟨c2.displayName, c2.tileURI, c1.identifiers,
              fingerprintInit h c1.identifiers, true⟩)]) := by
  have hst1 : ingestSuggestion h emptyStore c1
      = ⟨[(fingerprintInit h c1.identifiers,
           ⟨c1.displayName, c1.tileURI, c1.identifiers,
             fingerprintInit h c1.identifiers, true⟩)],
         [fingerprintInit h c1.identifiers]⟩ := by
    simp only [ingestSuggestion, emptyStore, findMatchingProfile_nil]
    rfl
  constructor
  · intro hdisj hne
    have hany : (c2.identifiers.any fun id => hasIdentifier c1.identifiers id) = false := by
      rw [List.any_eq_false]
      intro id hid
      rw [hasIdentifier_eq_true_iff]
      exact hdisj id hid
    have hnomatch : findMatchingProfile
        [(fingerprintInit h c1.identifiers,
          ⟨c1.displayName, c1.tileURI, c1.identifiers,
            fingerprintInit h c1.identifiers, true⟩)] c2.identifiers = none := by
      rw [findMatchingProfile_single]
      rw [if_neg (by rw [hany]; exact Bool.false_ne_true)]
    have hst2 : ingestTwo h c1 c2
        = ⟨mapInsert (fingerprintInit h c2.identifiers)
              ⟨c2.displayName, c2.tileURI, c2.identifiers,
                fingerprintInit h c2.identifiers, true⟩
              [(fingerprintInit h c1.identifiers,
                ⟨c1.displayName, c1.tileURI, c1.identifiers,
                  fingerprintInit h c1.identifiers, true⟩)],
           [fingerprintInit h c1.identifiers, fingerprintInit h c2.identifiers]⟩ := by
      unfold ingestTwo
      rw [hst1]
      simp only [ingestSuggestion, hnomatch]
      rfl
    rw [hst2]
    refine ⟨rfl, mapInsert_singleton_ne_length _ _ (Ne.symm hne) _ _, ?_, ?_⟩
    · rw [mapFind_mapInsert_ne _ _ hne]
      simp [mapFind]
    · rw [mapFind_mapInsert_self]
  · intro hsh
    obtain ⟨id, hid2, hid1⟩ := hsh
    have hany : (c2.identifiers.any fun i => hasIdentifier c1.identifiers i) = true := by
      rw [List.any_eq_true]
      exact ⟨id, hid2, (hasIdentifier_eq_true_iff _ _).mpr hid1⟩
    have hmatch : findMatchingProfile
        [(fingerprintInit h c1.identifiers,
          ⟨c1.displayName, c1.tileURI, c1.identifiers,
            fingerprintInit h c1.identifiers, true⟩)] c2.identifiers
        = some (fingerprintInit h c1.identifiers,
            ⟨c1.displayName, c1.tileURI, c1.identifiers,
              fingerprintInit h c1.identifiers, true⟩) := by
      rw [findMatchingProfile_single]
      rw [if_pos hany]
    have hst2 : ingestTwo h c1 c2
        = ⟨[(fingerprintInit h c1.identifiers,
             ⟨c2.displayName, c2.tileURI, c1.identifiers,
               fingerprintInit h c1.identifiers, true⟩)],
           [fingerprintInit h c1.identifiers]⟩ := by
      unfold ingestTwo
      rw [hst1]
      simp only [ingestSuggestion, hmatch]
      rw [mapInsert_singleton_self]
    rw [hst2]
    exact ⟨rfl, rfl⟩

/-- Witness for C8: the disjoint pair (P, Q) yields two entries; the
sharing pair (P, B) yields one entry with B's metadata. -/
theorem c8_disjoint_vs_shared_witness :
    (getNumProfiles (ingestTwo testHash cexP cexQ) = 2 ∧
      (ingestTwo testHash cexP cexQ).profiles.length = 2 ∧
      mapFind 3 (ingestTwo testHash cexP cexQ).profiles
        = some ⟨"P", "tp", [("p", "1")], 3, true⟩ ∧
      mapFind 6 (ingestTwo testHash cexP cexQ).profiles
        = some ⟨"Q", "tq", [("q", "1")], 6, true⟩) ∧
    (getNumProfiles (ingestTwo testHash cexP cexB) = 1 ∧
      (ingestTwo testHash cexP cexB).profiles
        = [(3, ⟨"B", "tb", [("p", "1")], 3, true⟩)]) := by
  have h1 := (c8_disjoint_vs_shared testHash cexP cexQ).1 (by decide) (by decide)
  have h2 := (c8_disjoint_vs_shared testHash cexP cexB).2 ⟨("p", "1"), by decide, by decide⟩
  exact ⟨h1, h2⟩

end ProfileManager
